import Mathlib

/-!
# Verification of the wallet persistence layer (`Storage`/`StorageManager`)

Shallow embedding of the repository's storage layer:

* `src/wallet/src/storage/manager.rs` — the Storage Manager: schema-version
  gate at construction, the account-index registry, account save/remove/list,
  and the account-manager / secret-manager persistence policy.
* `src/src/storage/jammdb.rs`, `src/src/storage/rocksdb.rs`,
  `src/wallet/src/storage/adapter/jammdb.rs` — the backend adapters.

Values persisted through the Storage Manager are serde-serialized typed data;
we embed the store as a typed key/value map. Keys live in a reserved namespace
of distinct string constants (`constants.rs`, summarized in the spec's §6
table), which we embed as an inductive key type: the per-account key is the
account-record prefix templated by the account index, so keys are injective
by construction exactly as the distinct string constants are.

Manager operations are embedded as pure state transformers that additionally
return the list of storage events (get/set/remove with their keys) they
perform, so ordering and frame properties are statable.
-/

/-- The error taxonomy (spec §7): `RecordNotFound`, `Storage(detail)`,
`DecryptionError`, `UnsupportedSchemaVersion`. The concrete `crate::Error`
enum is not part of the excerpt; the taxonomy is taken from the spec, and the
constructions actually used by the excerpted code (`Error::RecordNotFound`,
`Error::Storage(msg)`) appear verbatim in the adapters and the manager. -/
inductive Error where
  | RecordNotFound
  | Storage (msg : String)
  | DecryptionError
  | UnsupportedSchemaVersion
  deriving DecidableEq, Repr

/-- The reserved persisted-key namespace (spec §6): schema version key,
account-index-registry key, per-account record key templated by the index,
account-manager-config key, secret-manager-snapshot key. In the source these
are distinct string constants (`DATABASE_SCHEMA_VERSION_KEY`,
`ACCOUNTS_INDEXATION_KEY`, `ACCOUNT_INDEXATION_KEY ++ index`,
`ACCOUNT_MANAGER_INDEXATION_KEY`, `SECRET_MANAGER_KEY`); the string prefixes
are distinct, so the key space is faithfully embedded as an inductive type. -/
inductive Key where
  | schemaVersion
  | accountsIndexation
  | account (index : Nat)
  | accountManager
  | secretManager
  deriving DecidableEq, Repr

/-- An account record, as far as the storage layer observes it: its `index()`
(a u32 in the source; no arithmetic is performed on it, so `Nat` is an exact
embedding) and its remaining serialized payload, opaque to this layer. -/
structure Account where
  index : Nat
  payload : String
  deriving DecidableEq, Repr

/-- Modelled from the spec: the Secret Manager Snapshot (`SecretManagerDto`
of the external `iota_client` collaborator) is "a tagged variant of
secret-manager configurations; one variant (mnemonic-derived) is never
persisted". Only the mnemonic/non-mnemonic distinction is observed by the
excerpted code; the non-mnemonic variants carry opaque payloads. -/
inductive SecretManagerDto where
  | mnemonic (m : String)
  | stronghold (d : String)
  | ledgerNano (simulator : Bool)
  | hexSeed (s : String)
  deriving DecidableEq, Repr

/-- Whether a snapshot is the mnemonic-derived variant
(`SecretManagerDto::Mnemonic(_)`). -/
def SecretManagerDto.isMnemonic : SecretManagerDto → Bool
  | SecretManagerDto.mnemonic _ => true
  | _ => false

/-- Modelled from the spec: the in-memory secret manager (`SecretManager` of
the external `iota_client` collaborator), a tagged variant mirrored by its
snapshot DTO. Its cryptographic internals are out of scope (spec §1). -/
inductive SecretManager where
  | mnemonic (m : String)
  | stronghold (d : String)
  | ledgerNano (simulator : Bool)
  | hexSeed (s : String)
  deriving DecidableEq, Repr

/-- Modelled from the spec: `SecretManagerDto::from(&SecretManager)` — the
snapshot taken of a secret manager; each variant maps to its snapshot tag. -/
def SecretManagerDto.from : SecretManager → SecretManagerDto
  | SecretManager.mnemonic m => SecretManagerDto.mnemonic m
  | SecretManager.stronghold d => SecretManagerDto.stronghold d
  | SecretManager.ledgerNano b => SecretManagerDto.ledgerNano b
  | SecretManager.hexSeed s => SecretManagerDto.hexSeed s

/-- The secret manager a snapshot rehydrates to: each snapshot tag maps back
to the corresponding secret-manager variant. -/
def SecretManager.ofDto : SecretManagerDto → SecretManager
  | SecretManagerDto.mnemonic m => SecretManager.mnemonic m
  | SecretManagerDto.stronghold d => SecretManager.stronghold d
  | SecretManagerDto.ledgerNano b => SecretManager.ledgerNano b
  | SecretManagerDto.hexSeed s => SecretManager.hexSeed s

/-- Modelled from the spec: `SecretManager::try_from(&SecretManagerDto)` —
"any other variant is serialized on save and reconstructed on load"; each
snapshot rehydrates to the corresponding secret manager. -/
def SecretManager.tryFrom (d : SecretManagerDto) : Except Error SecretManager :=
  Except.ok (SecretManager.ofDto d)

/-- Modelled from the spec: the serializable part of `AccountManagerBuilder`
("wallet-level configuration"). The in-memory secret-manager handle is not
part of the serialized form — the spec persists it separately as the
conditional snapshot under the secret-manager key (spec §4.3, §6). -/
structure BuilderData where
  config : String
  deriving DecidableEq, Repr

/-- The builder/configuration object (external collaborator, spec §1): its
serializable configuration plus the optional in-memory secret manager. -/
structure AccountManagerBuilder where
  data : BuilderData
  secretManager : Option SecretManager
  deriving DecidableEq, Repr

/-- The typed values persisted under the reserved keys (spec §6 table):
a schema-version byte, the registry's index sequence, an account record,
the wallet configuration, a secret-manager snapshot. -/
inductive Value where
  | byte (v : Nat)
  | indexes (l : List Nat)
  | account (a : Account)
  | builder (b : BuilderData)
  | dto (d : SecretManagerDto)
  deriving DecidableEq, Repr

/-- The persisted contents of one store: each reserved key is either absent
or holds one value. -/
def Store : Type := Key → Option Value

/-- A storage event, recording each backend access the manager performs, in
order. -/
inductive Event where
  | get (k : Key)
  | set (k : Key) (v : Value)
  | remove (k : Key)
  deriving DecidableEq, Repr

/-- `Storage::set` — upsert of a typed value under a key. -/
def storageSet (s : Store) (k : Key) (v : Value) : Store :=
  fun k2 => if k2 = k then some v else s k2

/-- `Storage::remove` — delete a key. -/
def storageRemove (s : Store) (k : Key) : Store :=
  fun k2 => if k2 = k then none else s k2

/-- Typed projections standing for `serde` deserialization of a stored value
at the expected type: `Value.asByte` for `get::<u8>`, and so on. -/
def Value.asByte : Value → Option Nat
  | Value.byte v => some v
  | _ => none

def Value.asIndexes : Value → Option (List Nat)
  | Value.indexes l => some l
  | _ => none

def Value.asAccount : Value → Option Account
  | Value.account a => some a
  | _ => none

def Value.asBuilder : Value → Option BuilderData
  | Value.builder b => some b
  | _ => none

def Value.asDto : Value → Option SecretManagerDto
  | Value.dto d => some d
  | _ => none

/-- Modelled from the spec: `Storage::get::<T>` of the Encrypting Storage
wrapper (not part of the excerpt). As used by the Storage Manager
(`if let Some(v) = storage.get(key).await?`, `.unwrap_or_default()`), it
returns an empty optional when the key is absent (the adapter's not-found is
normalized to `None`, per the spec §4.1 design note on optional-returning
variants), the value deserialized at the expected type when present, and a
recoverable `Storage` error when the stored bytes do not deserialize. -/
def getTyped {α : Type} (proj : Value → Option α) (s : Store) (k : Key) :
    Except Error (Option α) :=
  match s k with
  | none => Except.ok none
  | some v =>
    match proj v with
    | some a => Except.ok (some a)
    | none => Except.error (Error.Storage "deserialization failed")

/-- `DATABASE_SCHEMA_VERSION` — the running system's expected schema version,
a hard-coded single-byte constant (spec §3: "a single-byte integer persisted
under a reserved key"). -/
def DATABASE_SCHEMA_VERSION : Nat := 1

/-- The Storage Manager state: its storage handle and the in-memory
`account_indexes` registry cache (`StorageManager` in `manager.rs`). -/
structure StorageManager where
  storage : Store
  account_indexes : List Nat

/-- `new_storage_manager` (manager.rs lines 48–77): reads the persisted
schema-version record; if present and different from
`DATABASE_SCHEMA_VERSION`, fails with
`Error::Storage("unsupported database schema version {v}")`; if absent,
writes the current version. It then reads the account-index registry into
the in-memory cache, defaulting to the empty list when the registry key is
absent (`.unwrap_or_default()`). Returns the constructed manager (or the
error), the resulting store, and the event trace. -/
def new_storage_manager (s : Store) :
    Except Error StorageManager × Store × List Event :=
  match getTyped Value.asByte s Key.schemaVersion with
  | Except.error e => (Except.error e, s, [Event.get Key.schemaVersion])
  | Except.ok (some db_schema_version) =>
    if db_schema_version ≠ DATABASE_SCHEMA_VERSION then
      (Except.error (Error.Storage
          ("unsupported database schema version " ++
            toString db_schema_version)),
        s, [Event.get Key.schemaVersion])
    else
      match getTyped Value.asIndexes s Key.accountsIndexation with
      | Except.error e =>
        (Except.error e, s,
          [Event.get Key.schemaVersion, Event.get Key.accountsIndexation])
      | Except.ok account_indexes =>
        (Except.ok ⟨s, account_indexes.getD []⟩, s,
          [Event.get Key.schemaVersion, Event.get Key.accountsIndexation])
  | Except.ok none =>
    let s1 := storageSet s Key.schemaVersion
      (Value.byte DATABASE_SCHEMA_VERSION)
    match getTyped Value.asIndexes s1 Key.accountsIndexation with
    | Except.error e =>
      (Except.error e, s1,
        [Event.get Key.schemaVersion,
          Event.set Key.schemaVersion (Value.byte DATABASE_SCHEMA_VERSION),
          Event.get Key.accountsIndexation])
    | Except.ok account_indexes =>
      (Except.ok ⟨s1, account_indexes.getD []⟩, s1,
        [Event.get Key.schemaVersion,
          Event.set Key.schemaVersion (Value.byte DATABASE_SCHEMA_VERSION),
          Event.get Key.accountsIndexation])

/-- `StorageManager::save_account` (manager.rs lines 176–188): appends the
account's index to the in-memory registry only if not already present, then
persists the updated registry, then persists the account record under the
key templated by its index. -/
def StorageManager.save_account (sm : StorageManager) (account : Account) :
    Except Error Unit × StorageManager × List Event :=
  let account_indexes :=
    if sm.account_indexes.contains account.index then sm.account_indexes
    else sm.account_indexes ++ [account.index]
  let s1 := storageSet sm.storage Key.accountsIndexation
    (Value.indexes account_indexes)
  let s2 := storageSet s1 (Key.account account.index) (Value.account account)
  (Except.ok (), ⟨s2, account_indexes⟩,
    [Event.set Key.accountsIndexation (Value.indexes account_indexes),
      Event.set (Key.account account.index) (Value.account account)])

/-- `StorageManager::remove_account` (manager.rs lines 190–198): deletes the
account's record, removes the index from the in-memory registry
(`retain(|a| a != &account_index)`), then persists the updated registry. -/
def StorageManager.remove_account (sm : StorageManager) (account_index : Nat) :
    Except Error Unit × StorageManager × List Event :=
  let s1 := storageRemove sm.storage (Key.account account_index)
  let account_indexes := sm.account_indexes.filter (fun a => a ≠ account_index)
  let s2 := storageSet s1 Key.accountsIndexation
    (Value.indexes account_indexes)
  (Except.ok (), ⟨s2, account_indexes⟩,
    [Event.remove (Key.account account_index),
      Event.set Key.accountsIndexation (Value.indexes account_indexes)])

/-- The outcome of an operation that may additionally panic: `ok`, a typed
recoverable error (`?`-propagated), or an unrecoverable panic (`.unwrap()`
on a missing value). -/
inductive Outcome (α : Type) where
  | ok (a : α)
  | err (e : Error)
  | panic
  deriving DecidableEq, Repr

/-- The record-fetch loop of `get_accounts` (manager.rs lines 162–171): for
each registered index, `get` the account record; a storage error propagates
via `?`; a missing record hits the `.unwrap()` and panics. -/
def fetchAccounts (s : Store) : List Nat → Outcome (List Account) × List Event
  | [] => (Outcome.ok [], [])
  | i :: rest =>
    match getTyped Value.asAccount s (Key.account i) with
    | Except.error e => (Outcome.err e, [Event.get (Key.account i)])
    | Except.ok none => (Outcome.panic, [Event.get (Key.account i)])
    | Except.ok (some a) =>
      match fetchAccounts s rest with
      | (Outcome.ok accounts, tr) =>
        (Outcome.ok (a :: accounts), Event.get (Key.account i) :: tr)
      | (o, tr) => (o, Event.get (Key.account i) :: tr)

/-- `StorageManager::get_accounts` (manager.rs lines 153–174): reads the
persisted registry; if the key is absent, returns the empty list at once;
otherwise adopts the read value into the in-memory cache only when the cache
is empty, then fetches each record of the (possibly pre-existing) cached
indexes via `fetchAccounts`. -/
def StorageManager.get_accounts (sm : StorageManager) :
    Outcome (List Account) × StorageManager × List Event :=
  match getTyped Value.asIndexes sm.storage Key.accountsIndexation with
  | Except.error e => (Outcome.err e, sm, [Event.get Key.accountsIndexation])
  | Except.ok none => (Outcome.ok [], sm, [Event.get Key.accountsIndexation])
  | Except.ok (some account_indexes) =>
    let sm1 : StorageManager :=
      if sm.account_indexes.isEmpty then ⟨sm.storage, account_indexes⟩ else sm
    match fetchAccounts sm1.storage sm1.account_indexes with
    | (o, tr) => (o, sm1, Event.get Key.accountsIndexation :: tr)

/-- `StorageManager::save_account_manager_data` (manager.rs lines 101–123):
persists the builder's configuration under the account-manager key; then, if
a secret manager is configured, takes its snapshot and persists it under the
secret-manager key unless the snapshot is the mnemonic variant ("Only store
secret_managers that aren't SecretManagerDto::Mnemonic"). -/
def StorageManager.save_account_manager_data (sm : StorageManager)
    (b : AccountManagerBuilder) :
    Except Error Unit × StorageManager × List Event :=
  let s1 := storageSet sm.storage Key.accountManager (Value.builder b.data)
  let tr1 := [Event.set Key.accountManager (Value.builder b.data)]
  match b.secretManager with
  | none => (Except.ok (), ⟨s1, sm.account_indexes⟩, tr1)
  | some secret_manager =>
    match SecretManagerDto.from secret_manager with
    | SecretManagerDto.mnemonic _ =>
      (Except.ok (), ⟨s1, sm.account_indexes⟩, tr1)
    | secret_manager_dto =>
      (Except.ok (),
        ⟨storageSet s1 Key.secretManager (Value.dto secret_manager_dto),
          sm.account_indexes⟩,
        tr1 ++ [Event.set Key.secretManager (Value.dto secret_manager_dto)])

/-- `StorageManager::get_account_manager_data` (manager.rs lines 125–151):
reads the builder configuration (absent ⇒ `Ok(None)`); when present, reads
the secret-manager snapshot, and unless the snapshot is absent or the
mnemonic variant, reconstructs a secret manager from it
(`SecretManager::try_from`, whose failure propagates via `?`). -/
def StorageManager.get_account_manager_data (sm : StorageManager) :
    Except Error (Option AccountManagerBuilder) × List Event :=
  match getTyped Value.asBuilder sm.storage Key.accountManager with
  | Except.error e => (Except.error e, [Event.get Key.accountManager])
  | Except.ok none => (Except.ok none, [Event.get Key.accountManager])
  | Except.ok (some bd) =>
    match getTyped Value.asDto sm.storage Key.secretManager with
    | Except.error e =>
      (Except.error e, [Event.get Key.accountManager,
        Event.get Key.secretManager])
    | Except.ok none =>
      (Except.ok (some ⟨bd, none⟩),
        [Event.get Key.accountManager, Event.get Key.secretManager])
    | Except.ok (some secret_manager_dto) =>
      match secret_manager_dto with
      | SecretManagerDto.mnemonic _ =>
        (Except.ok (some ⟨bd, none⟩),
          [Event.get Key.accountManager, Event.get Key.secretManager])
      | d =>
        match SecretManager.tryFrom d with
        | Except.error e =>
          (Except.error e, [Event.get Key.accountManager,
            Event.get Key.secretManager])
        | Except.ok secret_manager =>
          (Except.ok (some ⟨bd, some secret_manager⟩),
            [Event.get Key.accountManager, Event.get Key.secretManager])

/-!
## Backend adapters

`src/src/storage/jammdb.rs` and `src/wallet/src/storage/adapter/jammdb.rs`
wrap the external `jammdb` embedded B-tree engine; `src/src/storage/rocksdb.rs`
wraps the external `rocksdb` engine. The engines themselves are external
collaborators (spec §1); we embed the engine behavior the adapters rely on:
jammdb write transactions apply their changes to the database only on
`commit()` and roll back when dropped uncommitted, `Bucket::delete` of an
absent key reports a missing-key error, and rocksdb `put`/`delete` apply
immediately (`delete` of an absent key succeeds). Adapter values are strings
(stored as their UTF-8 bytes and read back losslessly).
-/

/-- The contents of one adapter's key/value space: jammdb's single "storage"
bucket, or the rocksdb column family. -/
def Bucket : Type := String → Option String

/-- The jammdb engine's error kinds observed by the adapters: the missing
key/value report of `Bucket::delete`/`tx` machinery, and anything else. -/
inductive JammdbError where
  | keyValueMissing
  | other (msg : String)
  deriving DecidableEq, Repr

/-- The engine error rendered to a string (`ToString`), as `storage_err` and
the wallet error conversion display it. -/
def JammdbError.toMessage : JammdbError → String
  | JammdbError.keyValueMissing => "key / value pair missing"
  | JammdbError.other m => m

/-- `storage_err` (both sdk adapter files, jammdb.rs line 19 / rocksdb.rs
line 24): wraps a backend error's message into `Error::Storage`. -/
def storage_err (e : JammdbError) : Error := Error.Storage e.toMessage

/-- Modelled from the spec: the wallet crate's `From<jammdb::Error>`
conversion used by `?` in `src/wallet/src/storage/adapter/jammdb.rs` (the
crate's `error.rs` is not part of the excerpt). Spec §7: "backend errors are
wrapped, not interpreted, into `Storage`". -/
def Error.fromJammdb (e : JammdbError) : Error := Error.Storage e.toMessage

/-- A jammdb write transaction (`db.tx(true)`): the database state it was
opened on, and its working view including uncommitted changes. -/
structure JammdbTx where
  base : Bucket
  current : Bucket

/-- Opening a write transaction: the working view starts at the database
state. -/
def JammdbTx.start (db : Bucket) : JammdbTx := ⟨db, db⟩

/-- `bucket.put(key, record)`: upsert in the transaction's working view. -/
def JammdbTx.put (tx : JammdbTx) (key record : String) : JammdbTx :=
  ⟨tx.base, fun k => if k = key then some record else tx.current k⟩

/-- `bucket.delete(key)`: removes the pair from the working view; the engine
reports a missing-key error when the key is absent. -/
def JammdbTx.delete (tx : JammdbTx) (key : String) :
    Except JammdbError JammdbTx :=
  match tx.current key with
  | none => Except.error JammdbError.keyValueMissing
  | some _ =>
    Except.ok ⟨tx.base, fun k => if k = key then none else tx.current k⟩

/-- `tx.commit()`: the working view becomes the database state. -/
def JammdbTx.commit (tx : JammdbTx) : Bucket := tx.current

/-- Dropping a write transaction without commit: its changes are rolled
back; the database keeps the state the transaction was opened on. -/
def JammdbTx.drop (tx : JammdbTx) : Bucket := tx.base

/-- `JammdbStorageAdapter::get` (src/src/storage/jammdb.rs lines 43–51): a
read-only transaction observes the committed state; a present pair's value
is returned, an absent key signals `Error::RecordNotFound`. -/
def JammdbStorageAdapter.get (db : Bucket) (key : String) :
    Except Error String :=
  match db key with
  | some r => Except.ok r
  | none => Except.error Error.RecordNotFound

/-- `JammdbStorageAdapter::set` (src/src/storage/jammdb.rs lines 53–60):
opens a write transaction, puts the pair, and commits. -/
def JammdbStorageAdapter.set (db : Bucket) (key record : String) :
    Except Error Unit × Bucket :=
  let tx := JammdbTx.start db
  let tx := tx.put key record
  (Except.ok (), tx.commit)

/-- `JammdbStorageAdapter::remove` (src/src/storage/jammdb.rs lines 73–80):
opens a write transaction and deletes the key (a delete failure is wrapped
by `storage_err` and returned via `?`), but — unlike `set` and `batch_set` —
never calls `tx.commit()`; the transaction is dropped at the end of the
function, so the engine rolls the deletion back. -/
def JammdbStorageAdapter.remove (db : Bucket) (key : String) :
    Except Error Unit × Bucket :=
  let tx := JammdbTx.start db
  match tx.delete key with
  | Except.error e => (Except.error (storage_err e), tx.drop)
  | Except.ok tx2 => (Except.ok (), tx2.drop)

/-- `JammdbStorageAdapter::get` of the wallet adapter
(src/wallet/src/storage/adapter/jammdb.rs lines 53–61): a present pair's
value is returned as `Ok(Some(..))`; an absent key is converted to the
wallet error wrapping `jammdb::Error::KeyValueMissing` — not
`RecordNotFound`, and the signature is optional-returning. -/
def WalletJammdbStorageAdapter.get (db : Bucket) (key : String) :
    Except Error (Option String) :=
  match db key with
  | some r => Except.ok (some r)
  | none => Except.error (Error.fromJammdb JammdbError.keyValueMissing)

/-- `JammdbStorageAdapter::set` of the wallet adapter
(src/wallet/src/storage/adapter/jammdb.rs lines 63–70): put and commit. -/
def WalletJammdbStorageAdapter.set (db : Bucket) (key record : String) :
    Except Error Unit × Bucket :=
  let tx := JammdbTx.start db
  let tx := tx.put key record
  (Except.ok (), tx.commit)

/-- `JammdbStorageAdapter::remove` of the wallet adapter
(src/wallet/src/storage/adapter/jammdb.rs lines 83–90): same shape as the
sdk adapter's remove — the delete error propagates via `?` (converted by the
wallet error's `From<jammdb::Error>`), and no `tx.commit()` is ever called,
so the dropped transaction rolls the deletion back. -/
def WalletJammdbStorageAdapter.remove (db : Bucket) (key : String) :
    Except Error Unit × Bucket :=
  let tx := JammdbTx.start db
  match tx.delete key with
  | Except.error e => (Except.error (Error.fromJammdb e), tx.drop)
  | Except.ok tx2 => (Except.ok (), tx2.drop)

/-- `RocksdbStorageAdapter::get` (src/src/storage/rocksdb.rs lines 50–56):
a present value is returned; an absent key signals `Error::RecordNotFound`. -/
def RocksdbStorageAdapter.get (db : Bucket) (key : String) :
    Except Error String :=
  match db key with
  | some r => Except.ok r
  | none => Except.error Error.RecordNotFound

/-- `RocksdbStorageAdapter::set` (src/src/storage/rocksdb.rs lines 58–65):
`put` applies immediately. -/
def RocksdbStorageAdapter.set (db : Bucket) (key record : String) :
    Except Error Unit × Bucket :=
  (Except.ok (), fun k => if k = key then some record else db k)

/-- `RocksdbStorageAdapter::remove` (src/src/storage/rocksdb.rs lines
76–79): `delete` applies immediately; deleting an absent key succeeds. -/
def RocksdbStorageAdapter.remove (db : Bucket) (key : String) :
    Except Error Unit × Bucket :=
  (Except.ok (), fun k => if k = key then none else db k)

/-!
## Observation helpers and concrete states
-/

deriving instance DecidableEq for Except

/-- The error of a failed construction, if any. -/
def constructionError :
    Except Error StorageManager × Store × List Event → Option Error
  | (Except.error e, _, _) => some e
  | (Except.ok _, _, _) => none

/-- Whether construction succeeded. -/
def constructionOk :
    Except Error StorageManager × Store × List Event → Bool
  | (Except.ok _, _, _) => true
  | (Except.error _, _, _) => false

/-- The in-memory registry cache of a successfully constructed manager. -/
def cacheOf : Except Error StorageManager → Option (List Nat)
  | Except.ok sm => some sm.account_indexes
  | Except.error _ => none

/-- The registry key's stored value (if any) deserializes as an index
list. -/
def registryWellTyped (s : Store) : Bool :=
  match s Key.accountsIndexation with
  | none => true
  | some v => (Value.asIndexes v).isSome

/-- The record stored for index `i` (if any) deserializes as an account:
no corrupted account record for `i`. -/
def recordWellTyped (s : Store) (i : Nat) : Bool :=
  match s (Key.account i) with
  | none => true
  | some v => (Value.asAccount v).isSome

/-- A well-typed account record is present for index `i`. -/
def recordPresent (s : Store) (i : Nat) : Bool :=
  match s (Key.account i) with
  | some (Value.account _) => true
  | _ => false

/-- A well-typed account record whose own `index()` equals `i` is present
for index `i`. -/
def recordIndexed (s : Store) (i : Nat) : Bool :=
  match s (Key.account i) with
  | some (Value.account a) => a.index == i
  | _ => false

/-- The indexes `get_accounts` iterates once the registry key was read as
`l`: the freshly read value when the cache is empty, else the cache. -/
def effectiveIndexes (sm : StorageManager) (l : List Nat) : List Nat :=
  if sm.account_indexes.isEmpty then l else sm.account_indexes

def Outcome.isOk {α : Type} : Outcome α → Bool
  | Outcome.ok _ => true
  | _ => false

/-- The outcome is a successfully fetched account list none of whose
accounts has index `i`. -/
def excludesIndex (r : Outcome (List Account)) (i : Nat) : Bool :=
  match r with
  | Outcome.ok accounts => accounts.all (fun b => b.index != i)
  | _ => false

/-- The save path persists a secret-manager snapshot for this builder: a
secret manager is configured and its snapshot is not the mnemonic
variant. -/
def savesSnapshot (b : AccountManagerBuilder) : Bool :=
  match b.secretManager with
  | none => false
  | some m => !(SecretManagerDto.from m).isMnemonic

/-- A store persisted by a system running schema version 2. -/
def mismatchedStore : Store := fun k =>
  match k with
  | Key.schemaVersion => some (Value.byte 2)
  | _ => none

/-- A store with no persisted keys at all (first run). -/
def freshStore : Store := fun _ => none

/-- A store at the current schema version whose registry is `[5]`, with the
matching account record present. -/
def registryStore : Store := fun k =>
  match k with
  | Key.schemaVersion => some (Value.byte DATABASE_SCHEMA_VERSION)
  | Key.accountsIndexation => some (Value.indexes [5])
  | Key.account 5 => some (Value.account ⟨5, "acct5"⟩)
  | _ => none

/-- An adapter database holding the single pair `"a" ↦ "1"`. -/
def c2Bucket : Bucket := fun k => if k = "a" then some "1" else none

/-!
## Claims
-/

/-- **C2** (evidence of the code bug). On the database `{"a" ↦ "1"}`: the
sdk jammdb adapter's `remove("a")` returns success, yet `get("a")` afterwards
still returns `"1"` — the delete ran in a write transaction that is dropped
without `tx.commit()` (unlike `set`/`batch_set`), so the engine rolls it
back; the wallet jammdb adapter behaves the same; and jammdb `remove` of the
absent key `"b"` is a `Storage` error, not a success. The rocksdb adapter
conforms to the claim: `remove("a")` then `get("a")` signals
`RecordNotFound`, and removing the absent `"b"` succeeds. -/
theorem C2_jammdb_remove_rolls_back :
    (JammdbStorageAdapter.remove c2Bucket "a").1 = Except.ok () ∧
    JammdbStorageAdapter.get (JammdbStorageAdapter.remove c2Bucket "a").2 "a"
      = Except.ok "1" ∧
    WalletJammdbStorageAdapter.get
        (WalletJammdbStorageAdapter.remove c2Bucket "a").2 "a"
      = Except.ok (some "1") ∧
    (JammdbStorageAdapter.remove c2Bucket "b").1 =
      Except.error (Error.Storage "key / value pair missing") ∧
    (RocksdbStorageAdapter.remove c2Bucket "a").1 = Except.ok () ∧
    RocksdbStorageAdapter.get (RocksdbStorageAdapter.remove c2Bucket "a").2 "a"
      = Except.error Error.RecordNotFound ∧
    (RocksdbStorageAdapter.remove c2Bucket "b").1 = Except.ok () := by
  decide

/-- **C5** (counterexample). On an empty database, the wallet jammdb
adapter's `get("a")` signals the wrapped backend missing-key error — a
`Storage` error, not `RecordNotFound` — so the not-found contract is not
uniform across the adapter variants. -/
theorem C5_counterexample :
    WalletJammdbStorageAdapter.get (fun _ => none) "a" =
      Except.error (Error.Storage "key / value pair missing") ∧
    WalletJammdbStorageAdapter.get (fun _ => none) "a" ≠
      Except.error Error.RecordNotFound := by
  decide

/-- **C5** (amended). For every key absent from the store, the sdk jammdb
and rocksdb adapters' `get` signals `RecordNotFound`; the wallet jammdb
adapter instead signals the wrapped backend missing-key `Storage` error
(and its signature is optional-returning), so the contract is uniform only
across the two sdk adapters. -/
theorem C5_amended (db : Bucket) (k : String) (h : db k = none) :
    JammdbStorageAdapter.get db k = Except.error Error.RecordNotFound ∧
    RocksdbStorageAdapter.get db k = Except.error Error.RecordNotFound ∧
    WalletJammdbStorageAdapter.get db k =
      Except.error (Error.Storage
        (JammdbError.toMessage JammdbError.keyValueMissing)) := by
  refine ⟨?_, ?_, ?_⟩ <;>
    simp [JammdbStorageAdapter.get, RocksdbStorageAdapter.get,
      WalletJammdbStorageAdapter.get, Error.fromJammdb, h]

/-- Witness for C5: the amended statement at the empty database and key
`"a"`. -/
theorem C5_amended_witness :
    (fun (_ : String) => (none : Option String)) "a" = none ∧
    (JammdbStorageAdapter.get (fun _ => none) "a" =
        Except.error Error.RecordNotFound ∧
      RocksdbStorageAdapter.get (fun _ => none) "a" =
        Except.error Error.RecordNotFound ∧
      WalletJammdbStorageAdapter.get (fun _ => none) "a" =
        Except.error (Error.Storage
          (JammdbError.toMessage JammdbError.keyValueMissing))) :=
  ⟨rfl, C5_amended (fun _ => none) "a" rfl⟩

/-- **C1** (counterexample). On a store persisted at schema version 2 (the
running version being 1), construction fails — but with the generic
`Error::Storage("unsupported database schema version 2")`, not with a
distinct `UnsupportedSchemaVersion` error kind of the taxonomy. -/
theorem C1_counterexample :
    constructionError (new_storage_manager mismatchedStore) =
      some (Error.Storage "unsupported database schema version 2") ∧
    constructionError (new_storage_manager mismatchedStore) ≠
      some Error.UnsupportedSchemaVersion ∧
    (new_storage_manager mismatchedStore).2.2 = [Event.get Key.schemaVersion] := by
  decide

/-- **C1** (amended). If the persisted schema-version record is present and
differs from the running version, construction fails with the generic
`Storage` error carrying the "unsupported database schema version" message
(not a distinct error kind), performing no writes and leaving the store
unchanged; if the version record is absent (and the registry key is not
corrupted), construction writes the current version and succeeds. -/
theorem C1_amended (s₁ s₂ : Store) (v : Nat)
    (h1 : s₁ Key.schemaVersion = some (Value.byte v))
    (h2 : v ≠ DATABASE_SCHEMA_VERSION)
    (h3 : s₂ Key.schemaVersion = none)
    (h4 : registryWellTyped s₂ = true) :
    ((new_storage_manager s₁).1 = Except.error (Error.Storage
        ("unsupported database schema version " ++ toString v)) ∧
      (new_storage_manager s₁).2.1 = s₁ ∧
      (new_storage_manager s₁).2.2 = [Event.get Key.schemaVersion]) ∧
    (constructionOk (new_storage_manager s₂) = true ∧
      (new_storage_manager s₂).2.1 Key.schemaVersion =
        some (Value.byte DATABASE_SCHEMA_VERSION)) := by
  constructor
  · simp [new_storage_manager, getTyped, h1, Value.asByte, h2]
  · simp only [new_storage_manager, getTyped, h3]
    have hreg : storageSet s₂ Key.schemaVersion
        (Value.byte DATABASE_SCHEMA_VERSION) Key.accountsIndexation =
        s₂ Key.accountsIndexation := by
      simp [storageSet]
    rw [hreg]
    unfold registryWellTyped at h4
    rcases hv : s₂ Key.accountsIndexation with _ | v2
    · simp [constructionOk, storageSet]
    · rw [hv] at h4
      rcases v2 with _ | _ | _ | _ | _ <;>
        simp_all [Value.asIndexes, constructionOk, storageSet]

/-- Witness for C1: the amended statement at the version-2 store and the
fresh store. -/
theorem C1_amended_witness :
    mismatchedStore Key.schemaVersion = some (Value.byte 2) ∧
    2 ≠ DATABASE_SCHEMA_VERSION ∧
    freshStore Key.schemaVersion = none ∧
    registryWellTyped freshStore = true ∧
    (((new_storage_manager mismatchedStore).1 = Except.error (Error.Storage
          ("unsupported database schema version " ++ toString 2)) ∧
        (new_storage_manager mismatchedStore).2.1 = mismatchedStore ∧
        (new_storage_manager mismatchedStore).2.2 =
          [Event.get Key.schemaVersion]) ∧
      (constructionOk (new_storage_manager freshStore) = true ∧
        (new_storage_manager freshStore).2.1 Key.schemaVersion =
          some (Value.byte DATABASE_SCHEMA_VERSION))) :=
  ⟨by decide, by decide, by decide, by decide,
    C1_amended mismatchedStore freshStore 2 (by decide) (by decide)
      (by decide) (by decide)⟩

/-- **C8** (counterexample). On a store at the current version whose
persisted registry is `[5]`, the constructor itself reads the registry key
(its event trace ends with that read) and returns a manager whose in-memory
cache is already `[5]` — before any call to `get_accounts` — so the registry
is not loaded lazily on first access. -/
theorem C8_counterexample :
    cacheOf (new_storage_manager registryStore).1 = some [5] ∧
    (new_storage_manager registryStore).2.2 =
      [Event.get Key.schemaVersion, Event.get Key.accountsIndexation] := by
  decide

/-- **C8** (amended). The registry is loaded eagerly, not lazily: the
constructor reads the persisted registry into the in-memory cache as part of
construction (defaulting to empty when the key is absent), and a first
`get_accounts` call on an empty cache re-reads the persisted registry and
adopts it into the cache before fetching each indexed record. -/
theorem C8_amended (s : Store) (l : List Nat)
    (h1 : s Key.schemaVersion = some (Value.byte DATABASE_SCHEMA_VERSION))
    (h2 : s Key.accountsIndexation = some (Value.indexes l)) :
    cacheOf (new_storage_manager s).1 = some l ∧
    (new_storage_manager s).2.2 =
      [Event.get Key.schemaVersion, Event.get Key.accountsIndexation] ∧
    (StorageManager.get_accounts ⟨s, []⟩).2.1.account_indexes = l := by
  refine ⟨?_, ?_, ?_⟩
  · simp [new_storage_manager, getTyped, h1, h2, Value.asByte,
      Value.asIndexes, DATABASE_SCHEMA_VERSION, cacheOf]
  · simp [new_storage_manager, getTyped, h1, h2, Value.asByte,
      Value.asIndexes, DATABASE_SCHEMA_VERSION]
  · simp [StorageManager.get_accounts, getTyped, h2, Value.asIndexes]

/-- Witness for C8: the amended statement at the store whose registry is
`[5]`. -/
theorem C8_amended_witness :
    registryStore Key.schemaVersion =
      some (Value.byte DATABASE_SCHEMA_VERSION) ∧
    registryStore Key.accountsIndexation = some (Value.indexes [5]) ∧
    (cacheOf (new_storage_manager registryStore).1 = some [5] ∧
      (new_storage_manager registryStore).2.2 =
        [Event.get Key.schemaVersion, Event.get Key.accountsIndexation] ∧
      (StorageManager.get_accounts ⟨registryStore, []⟩).2.1.account_indexes =
        [5]) :=
  ⟨by decide, by decide, C8_amended registryStore [5] (by decide) (by decide)⟩

/-- **C9**. `get_accounts` consults the persisted registry value only when
the in-memory cache is empty: with a non-empty cache, the freshly read
persisted registry is discarded — the outcome is the record fetch over the
pre-existing cache and the returned manager is unchanged; and when the
persisted registry key is absent, the call returns the empty list at once
(its only storage access is the registry read — no account-record reads)
even when the in-memory cache is non-empty. -/
theorem C9_cache_shadows_persisted (sm₁ sm₂ : StorageManager) (l : List Nat)
    (h1 : sm₁.storage Key.accountsIndexation = some (Value.indexes l))
    (h2 : sm₁.account_indexes ≠ [])
    (h3 : sm₂.storage Key.accountsIndexation = none) :
    ((StorageManager.get_accounts sm₁).1 =
        (fetchAccounts sm₁.storage sm₁.account_indexes).1 ∧
      (StorageManager.get_accounts sm₁).2.1 = sm₁) ∧
    StorageManager.get_accounts sm₂ =
      (Outcome.ok [], sm₂, [Event.get Key.accountsIndexation]) := by
  have hne : sm₁.account_indexes.isEmpty = false := by
    rcases hc : sm₁.account_indexes with _ | ⟨x, t⟩
    · exact absurd hc h2
    · rfl
  refine ⟨⟨?_, ?_⟩, ?_⟩
  · simp [StorageManager.get_accounts, getTyped, h1, Value.asIndexes, hne]
  · simp [StorageManager.get_accounts, getTyped, h1, Value.asIndexes, hne]
  · simp [StorageManager.get_accounts, getTyped, h3]

/-- Witness for C9: a manager whose cache `[5]` is non-empty over the store
with registry `[5]`, and a manager with non-empty cache `[9]` over the empty
store. -/
theorem C9_witness :
    (StorageManager.mk registryStore [5]).storage Key.accountsIndexation =
      some (Value.indexes [5]) ∧
    (StorageManager.mk registryStore [5]).account_indexes ≠ [] ∧
    (StorageManager.mk freshStore [9]).storage Key.accountsIndexation =
      none ∧
    (((StorageManager.get_accounts (StorageManager.mk registryStore [5])).1 =
        (fetchAccounts (StorageManager.mk registryStore [5]).storage
          (StorageManager.mk registryStore [5]).account_indexes).1 ∧
      (StorageManager.get_accounts
          (StorageManager.mk registryStore [5])).2.1 =
        StorageManager.mk registryStore [5]) ∧
    StorageManager.get_accounts (StorageManager.mk freshStore [9]) =
      (Outcome.ok [], StorageManager.mk freshStore [9],
        [Event.get Key.accountsIndexation])) :=
  ⟨by decide, by decide, by decide,
    C9_cache_shadows_persisted (StorageManager.mk registryStore [5])
      (StorageManager.mk freshStore [9]) [5] (by decide) (by decide)
      (by decide)⟩

/-- **C3**. `save_account` is idempotent on the registry: starting from any
manager whose in-memory registry holds the account's index at most once,
saving the same account twice leaves the in-memory registry holding that
index exactly once, and the persisted registry equals the in-memory one
(hence also holds it exactly once). -/
theorem C3_save_account_idempotent (sm : StorageManager) (a : Account)
    (h : sm.account_indexes.count a.index ≤ 1) :
    ((((sm.save_account a).2.1).save_account a).2.1).account_indexes.count
        a.index = 1 ∧
    ((((sm.save_account a).2.1).save_account a).2.1).storage
        Key.accountsIndexation =
      some (Value.indexes
        ((((sm.save_account a).2.1).save_account a).2.1).account_indexes) := by
  have hcount1 : ((sm.save_account a).2.1).account_indexes.count a.index = 1 := by
    show (if sm.account_indexes.contains a.index then sm.account_indexes
      else sm.account_indexes ++ [a.index]).count a.index = 1
    cases hc : sm.account_indexes.contains a.index with
    | true =>
      have hm : a.index ∈ sm.account_indexes := List.mem_of_elem_eq_true hc
      have hpos := List.count_pos_iff.mpr hm
      simp only [hc, if_true]
      omega
    | false =>
      have hm : a.index ∉ sm.account_indexes := by
        intro hmem
        exact Bool.noConfusion
          ((List.elem_eq_true_of_mem hmem).symm.trans hc)
      have h0 : sm.account_indexes.count a.index = 0 :=
        List.count_eq_zero.mpr hm
      simp [hc, List.count_append, h0]
  have hmem2 : a.index ∈ ((sm.save_account a).2.1).account_indexes := by
    by_contra hnm
    rw [List.count_eq_zero.mpr hnm] at hcount1
    exact Nat.noConfusion hcount1
  have hc2 : ((sm.save_account a).2.1).account_indexes.contains a.index =
      true :=
    List.elem_eq_true_of_mem hmem2
  have hcache2 : ((((sm.save_account a).2.1).save_account a).2.1).account_indexes
      = ((sm.save_account a).2.1).account_indexes := by
    show (if ((sm.save_account a).2.1).account_indexes.contains a.index then
        ((sm.save_account a).2.1).account_indexes
      else ((sm.save_account a).2.1).account_indexes ++ [a.index]) =
      ((sm.save_account a).2.1).account_indexes
    simp [hc2, hmem2]
  refine ⟨?_, ?_⟩
  · rw [hcache2]; exact hcount1
  · simp [StorageManager.save_account, storageSet]

/-- Witness for C3: saving the account of index 3 twice into a manager with
empty registry. -/
theorem C3_witness :
    (StorageManager.mk freshStore []).account_indexes.count 3 ≤ 1 ∧
    (((((StorageManager.mk freshStore []).save_account
            ⟨3, "x"⟩).2.1).save_account ⟨3, "x"⟩).2.1).account_indexes.count
        3 = 1 ∧
    (((((StorageManager.mk freshStore []).save_account
            ⟨3, "x"⟩).2.1).save_account ⟨3, "x"⟩).2.1).storage
        Key.accountsIndexation =
      some (Value.indexes
        (((((StorageManager.mk freshStore []).save_account
            ⟨3, "x"⟩).2.1).save_account ⟨3, "x"⟩).2.1).account_indexes) :=
  ⟨by decide,
    (C3_save_account_idempotent (StorageManager.mk freshStore []) ⟨3, "x"⟩
      (by decide)).1,
    (C3_save_account_idempotent (StorageManager.mk freshStore []) ⟨3, "x"⟩
      (by decide)).2⟩

/-- If every record of the iterated indexes is well typed and some iterated
index has no record, the fetch loop panics (it never surfaces a typed
error). -/
theorem fetchAccounts_panic_of_missing (s : Store) (l : List Nat) (i : Nat)
    (hwt : ∀ j ∈ l, recordWellTyped s j = true)
    (hi : i ∈ l) (hmiss : s (Key.account i) = none) :
    (fetchAccounts s l).1 = Outcome.panic := by
  induction l with
  | nil => cases hi
  | cons j rest ih =>
    rcases hsj : s (Key.account j) with _ | v
    · simp [fetchAccounts, getTyped, hsj]
    · have hwtj := hwt j (List.mem_cons_self j rest)
      unfold recordWellTyped at hwtj
      rw [hsj] at hwtj
      cases v with
      | account a =>
        have hirest : i ∈ rest := by
          rcases List.mem_cons.mp hi with heq | hmem
          · exfalso
            rw [heq, hsj] at hmiss
            exact Option.noConfusion hmiss
          · exact hmem
        have ihr := ih (fun x hx => hwt x (List.mem_cons_of_mem j hx)) hirest
        rcases hf : fetchAccounts s rest with ⟨o, tr⟩
        rw [hf] at ihr
        simp only at ihr
        subst ihr
        simp [fetchAccounts, getTyped, hsj, Value.asAccount, hf]
      | byte n => exact Bool.noConfusion hwtj
      | indexes l2 => exact Bool.noConfusion hwtj
      | builder b => exact Bool.noConfusion hwtj
      | dto d => exact Bool.noConfusion hwtj

/-- If a well-typed record is present for every iterated index, the fetch
loop succeeds. -/
theorem fetchAccounts_isOk_of_present (s : Store) (l : List Nat)
    (h : ∀ j ∈ l, recordPresent s j = true) :
    Outcome.isOk (fetchAccounts s l).1 = true := by
  induction l with
  | nil => rfl
  | cons j rest ih =>
    have hj := h j (List.mem_cons_self j rest)
    unfold recordPresent at hj
    rcases hsj : s (Key.account j) with _ | v
    · rw [hsj] at hj
      exact Bool.noConfusion hj
    · rw [hsj] at hj
      cases v with
      | account a =>
        have ihr := ih (fun x hx => h x (List.mem_cons_of_mem j hx))
        rcases hf : fetchAccounts s rest with ⟨o, tr⟩
        rw [hf] at ihr
        cases o with
        | ok accounts =>
          simp [fetchAccounts, getTyped, hsj, Value.asAccount, hf,
            Outcome.isOk]
        | err e => exact Bool.noConfusion ihr
        | panic => exact Bool.noConfusion ihr
      | byte n => exact Bool.noConfusion hj
      | indexes l2 => exact Bool.noConfusion hj
      | builder b => exact Bool.noConfusion hj
      | dto d => exact Bool.noConfusion hj

/-- If every iterated index has a well-typed record whose own index matches,
the fetch loop returns accounts whose indexes are exactly the iterated
list. -/
theorem fetchAccounts_ok_indexed (s : Store) (l : List Nat)
    (h : ∀ j ∈ l, recordIndexed s j = true) :
    ∃ accounts, (fetchAccounts s l).1 = Outcome.ok accounts ∧
      accounts.map Account.index = l := by
  induction l with
  | nil => exact ⟨[], rfl, rfl⟩
  | cons j rest ih =>
    have hj := h j (List.mem_cons_self j rest)
    unfold recordIndexed at hj
    rcases hsj : s (Key.account j) with _ | v
    · rw [hsj] at hj
      exact Bool.noConfusion hj
    · rw [hsj] at hj
      cases v with
      | account a =>
        have haj : a.index = j := by simpa using hj
        obtain ⟨accounts, hok, hmap⟩ :=
          ih (fun x hx => h x (List.mem_cons_of_mem j hx))
        rcases hf : fetchAccounts s rest with ⟨o, tr⟩
        rw [hf] at hok
        simp only at hok
        subst hok
        refine ⟨a :: accounts, ?_, ?_⟩
        · simp [fetchAccounts, getTyped, hsj, Value.asAccount, hf]
        · simp [hmap, haj]
      | byte n => exact Bool.noConfusion hj
      | indexes l2 => exact Bool.noConfusion hj
      | builder b => exact Bool.noConfusion hj
      | dto d => exact Bool.noConfusion hj

/-- When the registry key reads back as `l`, `get_accounts` is exactly the
fetch loop run over the effective indexes with the cache updated
accordingly. -/
theorem get_accounts_eq_fetch (sm : StorageManager) (l : List Nat)
    (h : sm.storage Key.accountsIndexation = some (Value.indexes l)) :
    StorageManager.get_accounts sm =
      ((fetchAccounts sm.storage (effectiveIndexes sm l)).1,
        ⟨sm.storage, effectiveIndexes sm l⟩,
        Event.get Key.accountsIndexation ::
          (fetchAccounts sm.storage (effectiveIndexes sm l)).2) := by
  unfold StorageManager.get_accounts effectiveIndexes
  simp only [getTyped, h, Value.asIndexes]
  cases hc : sm.account_indexes.isEmpty <;> simp [hc]

/-- A store holding a registry `[0]` whose account record is missing (a
dangling registered index). -/
def danglingStore : Store := fun k =>
  match k with
  | Key.accountsIndexation => some (Value.indexes [0])
  | _ => none

/-- **C4**. A registered index with no persisted record is fatal: when the
registry key is present, every record of the effective indexes is
uncorrupted, and some effective index has no record, `get_accounts` panics
(the `.unwrap()` on the missing record) — it never returns a typed
recoverable error for this condition; conversely, when every effective index
has a well-typed record, the panic branch is unreachable and the call
succeeds. -/
theorem C4_missing_record_is_fatal (sm₁ sm₂ : StorageManager)
    (l₁ l₂ : List Nat) (i : Nat)
    (h1 : sm₁.storage Key.accountsIndexation = some (Value.indexes l₁))
    (h2 : ∀ j ∈ effectiveIndexes sm₁ l₁, recordWellTyped sm₁.storage j = true)
    (h3 : i ∈ effectiveIndexes sm₁ l₁)
    (h4 : sm₁.storage (Key.account i) = none)
    (h5 : sm₂.storage Key.accountsIndexation = some (Value.indexes l₂))
    (h6 : ∀ j ∈ effectiveIndexes sm₂ l₂, recordPresent sm₂.storage j = true) :
    (StorageManager.get_accounts sm₁).1 = Outcome.panic ∧
    Outcome.isOk (StorageManager.get_accounts sm₂).1 = true := by
  constructor
  · rw [get_accounts_eq_fetch sm₁ l₁ h1]
    exact fetchAccounts_panic_of_missing sm₁.storage
      (effectiveIndexes sm₁ l₁) i h2 h3 h4
  · rw [get_accounts_eq_fetch sm₂ l₂ h5]
    exact fetchAccounts_isOk_of_present sm₂.storage
      (effectiveIndexes sm₂ l₂) h6

/-- Witness for C4: a fresh manager over the dangling store (registry `[0]`,
no record) panics; a fresh manager over the consistent store (registry `[5]`
with its record) succeeds. -/
theorem C4_witness :
    (StorageManager.mk danglingStore []).storage Key.accountsIndexation =
      some (Value.indexes [0]) ∧
    (∀ j ∈ effectiveIndexes (StorageManager.mk danglingStore []) [0],
      recordWellTyped (StorageManager.mk danglingStore []).storage j =
        true) ∧
    0 ∈ effectiveIndexes (StorageManager.mk danglingStore []) [0] ∧
    (StorageManager.mk danglingStore []).storage (Key.account 0) = none ∧
    (StorageManager.mk registryStore []).storage Key.accountsIndexation =
      some (Value.indexes [5]) ∧
    (∀ j ∈ effectiveIndexes (StorageManager.mk registryStore []) [5],
      recordPresent (StorageManager.mk registryStore []).storage j = true) ∧
    ((StorageManager.get_accounts (StorageManager.mk danglingStore [])).1 =
        Outcome.panic ∧
      Outcome.isOk
        (StorageManager.get_accounts
          (StorageManager.mk registryStore [])).1 = true) :=
  ⟨by decide, by decide, by decide, by decide, by decide, by decide,
    C4_missing_record_is_fatal (StorageManager.mk danglingStore [])
      (StorageManager.mk registryStore []) [0] [5] 0 (by decide) (by decide)
      (by decide) (by decide) (by decide) (by decide)⟩

/-- **C7**. `save_account(idx)` then `remove_account(idx)` then
`get_accounts()` yields a successfully fetched account list containing no
account with index `idx` (provided every other registered index has a
matching record), and `remove_account` performs, in order: delete the
account record, remove the index from the in-memory registry, then persist
the updated registry (its event trace is exactly the record removal followed
by the registry write of the already-filtered in-memory registry). -/
theorem C7_remove_after_save_excludes (sm : StorageManager) (a : Account)
    (h : ∀ j ∈ sm.account_indexes, j ≠ a.index →
      recordIndexed sm.storage j = true) :
    excludesIndex
      (StorageManager.get_accounts
        (((sm.save_account a).2.1.remove_account a.index).2.1)).1 a.index
      = true ∧
    ((sm.save_account a).2.1.remove_account a.index).2.2 =
      [Event.remove (Key.account a.index),
        Event.set Key.accountsIndexation
          (Value.indexes
            ((((sm.save_account a).2.1.remove_account a.index).2.1).account_indexes))] ∧
    (((sm.save_account a).2.1.remove_account a.index).2.1).account_indexes =
      ((sm.save_account a).2.1).account_indexes.filter
        (fun x => x ≠ a.index) := by
  refine ⟨?_, rfl, rfl⟩
  have hreg : (((sm.save_account a).2.1.remove_account a.index).2.1).storage
      Key.accountsIndexation =
      some (Value.indexes
        ((((sm.save_account a).2.1.remove_account a.index).2.1).account_indexes)) := by
    simp [StorageManager.remove_account, StorageManager.save_account,
      storageSet]
  have hmemidx : ∀ j,
      j ∈ (((sm.save_account a).2.1.remove_account a.index).2.1).account_indexes →
      j ∈ sm.account_indexes ∧ j ≠ a.index := by
    intro j hjmem
    have hjf : j ∈ ((sm.save_account a).2.1).account_indexes.filter
        (fun x => x ≠ a.index) := hjmem
    have hj1 := (List.mem_filter.mp hjf).1
    have hjne : j ≠ a.index := by
      have := (List.mem_filter.mp hjf).2
      simpa using this
    refine ⟨?_, hjne⟩
    have hj2 : j ∈ (if sm.account_indexes.contains a.index then
        sm.account_indexes else sm.account_indexes ++ [a.index]) := hj1
    cases hc : sm.account_indexes.contains a.index with
    | true =>
      rw [hc] at hj2
      simpa using hj2
    | false =>
      rw [hc] at hj2
      simp at hj2
      rcases hj2 with hmem | heq
      · exact hmem
      · exact absurd heq hjne
  have hstore : ∀ j, j ≠ a.index →
      (((sm.save_account a).2.1.remove_account a.index).2.1).storage
        (Key.account j) = sm.storage (Key.account j) := by
    intro j hj
    simp [StorageManager.remove_account, StorageManager.save_account,
      storageSet, storageRemove, hj]
  have hrecords : ∀ j ∈
      (((sm.save_account a).2.1.remove_account a.index).2.1).account_indexes,
      recordIndexed
        ((((sm.save_account a).2.1.remove_account a.index).2.1).storage) j =
        true := by
    intro j hjmem
    obtain ⟨hjl, hjne⟩ := hmemidx j hjmem
    have hrec := h j hjl hjne
    unfold recordIndexed at hrec ⊢
    rw [hstore j hjne]
    exact hrec
  obtain ⟨accounts, hok, hmap⟩ :=
    fetchAccounts_ok_indexed
      ((((sm.save_account a).2.1.remove_account a.index).2.1).storage)
      ((((sm.save_account a).2.1.remove_account a.index).2.1).account_indexes)
      hrecords
  rw [get_accounts_eq_fetch _ _ hreg]
  have heff : effectiveIndexes
      (((sm.save_account a).2.1.remove_account a.index).2.1)
      ((((sm.save_account a).2.1.remove_account a.index).2.1).account_indexes) =
      (((sm.save_account a).2.1.remove_account a.index).2.1).account_indexes := by
    unfold effectiveIndexes
    exact ite_self _
  show excludesIndex
    ((fetchAccounts
      ((((sm.save_account a).2.1.remove_account a.index).2.1).storage)
      (effectiveIndexes
        (((sm.save_account a).2.1.remove_account a.index).2.1)
        ((((sm.save_account a).2.1.remove_account a.index).2.1).account_indexes))).1)
    a.index = true
  rw [heff, hok]
  unfold excludesIndex
  apply List.all_eq_true.mpr
  intro b hb
  have hbmem : b.index ∈
      (((sm.save_account a).2.1.remove_account a.index).2.1).account_indexes := by
    rw [← hmap]
    exact List.mem_map_of_mem Account.index hb
  have hbne := (hmemidx b.index hbmem).2
  simpa using hbne

/-- Witness for C7: saving account 2 into a manager holding account 1, then
removing index 2 and listing. -/
theorem C7_witness :
    (∀ j ∈ (StorageManager.mk registryStore [5]).account_indexes, j ≠ 2 →
      recordIndexed (StorageManager.mk registryStore [5]).storage j = true) ∧
    (excludesIndex
      (StorageManager.get_accounts
        ((((StorageManager.mk registryStore [5]).save_account
            ⟨2, "y"⟩).2.1.remove_account 2).2.1)).1 2 = true ∧
    (((StorageManager.mk registryStore [5]).save_account
        ⟨2, "y"⟩).2.1.remove_account 2).2.2 =
      [Event.remove (Key.account 2),
        Event.set Key.accountsIndexation
          (Value.indexes
            (((((StorageManager.mk registryStore [5]).save_account
                ⟨2, "y"⟩).2.1.remove_account 2).2.1).account_indexes))] ∧
    ((((StorageManager.mk registryStore [5]).save_account
        ⟨2, "y"⟩).2.1.remove_account 2).2.1).account_indexes =
      (((StorageManager.mk registryStore [5]).save_account
          ⟨2, "y"⟩).2.1).account_indexes.filter (fun x => x ≠ 2)) :=
  ⟨by decide,
    C7_remove_after_save_excludes (StorageManager.mk registryStore [5])
      ⟨2, "y"⟩ (by decide)⟩

/-- A store holding only a previously persisted stronghold snapshot. -/
def snapStore : Store := fun k =>
  match k with
  | Key.secretManager => some (Value.dto (SecretManagerDto.stronghold "sh"))
  | _ => none

/-- **C6**. `save_account_manager_data` never persists a mnemonic-derived
snapshot: for a builder whose secret manager snapshots to the mnemonic
variant, the call's only write is the builder configuration (no write to the
secret-manager key), so over a store with no pre-existing snapshot the value
under the secret-manager key stays absent and a subsequent
`get_account_manager_data` returns the builder with no reconstructed secret
manager; for a builder with a secret manager of any other variant, the
snapshot is written on save and a secret manager is reconstructed from it on
load. -/
theorem C6_mnemonic_never_persisted (sm₁ sm₂ : StorageManager)
    (b₁ b₂ : AccountManagerBuilder) (m₁ m₂ : SecretManager)
    (h1 : b₁.secretManager = some m₁)
    (h2 : (SecretManagerDto.from m₁).isMnemonic = true)
    (h3 : sm₁.storage Key.secretManager = none)
    (h4 : b₂.secretManager = some m₂)
    (h5 : (SecretManagerDto.from m₂).isMnemonic = false) :
    ((sm₁.save_account_manager_data b₁).2.2 =
        [Event.set Key.accountManager (Value.builder b₁.data)] ∧
      ((sm₁.save_account_manager_data b₁).2.1).storage Key.secretManager =
        none ∧
      (StorageManager.get_account_manager_data
          (sm₁.save_account_manager_data b₁).2.1).1 =
        Except.ok (some ⟨b₁.data, none⟩)) ∧
    (((sm₂.save_account_manager_data b₂).2.1).storage Key.secretManager =
        some (Value.dto (SecretManagerDto.from m₂)) ∧
      (StorageManager.get_account_manager_data
          (sm₂.save_account_manager_data b₂).2.1).1 =
        Except.ok (some ⟨b₂.data,
          some (SecretManager.ofDto (SecretManagerDto.from m₂))⟩)) := by
  constructor
  · cases m₁ with
    | mnemonic s =>
      refine ⟨?_, ?_, ?_⟩ <;>
        simp [StorageManager.save_account_manager_data,
          StorageManager.get_account_manager_data, getTyped, storageSet,
          h1, h3, SecretManagerDto.from, Value.asBuilder, Value.asDto]
    | stronghold s =>
      exact absurd h2 (by simp [SecretManagerDto.from,
        SecretManagerDto.isMnemonic])
    | ledgerNano s =>
      exact absurd h2 (by simp [SecretManagerDto.from,
        SecretManagerDto.isMnemonic])
    | hexSeed s =>
      exact absurd h2 (by simp [SecretManagerDto.from,
        SecretManagerDto.isMnemonic])
  · cases m₂ with
    | mnemonic s =>
      exact absurd h5 (by simp [SecretManagerDto.from,
        SecretManagerDto.isMnemonic])
    | stronghold s =>
      refine ⟨?_, ?_⟩ <;>
        simp [StorageManager.save_account_manager_data,
          StorageManager.get_account_manager_data, getTyped, storageSet,
          h4, SecretManagerDto.from, Value.asBuilder, Value.asDto,
          SecretManager.tryFrom, SecretManager.ofDto]
    | ledgerNano s =>
      refine ⟨?_, ?_⟩ <;>
        simp [StorageManager.save_account_manager_data,
          StorageManager.get_account_manager_data, getTyped, storageSet,
          h4, SecretManagerDto.from, Value.asBuilder, Value.asDto,
          SecretManager.tryFrom, SecretManager.ofDto]
    | hexSeed s =>
      refine ⟨?_, ?_⟩ <;>
        simp [StorageManager.save_account_manager_data,
          StorageManager.get_account_manager_data, getTyped, storageSet,
          h4, SecretManagerDto.from, Value.asBuilder, Value.asDto,
          SecretManager.tryFrom, SecretManager.ofDto]

/-- Witness for C6: saving a mnemonic-backed builder into a fresh store, and
a stronghold-backed builder into a fresh store. -/
theorem C6_witness :
    (AccountManagerBuilder.mk ⟨"cfg"⟩
        (some (SecretManager.mnemonic "words"))).secretManager =
      some (SecretManager.mnemonic "words") ∧
    (SecretManagerDto.from (SecretManager.mnemonic "words")).isMnemonic =
      true ∧
    (StorageManager.mk freshStore []).storage Key.secretManager = none ∧
    (AccountManagerBuilder.mk ⟨"cfg"⟩
        (some (SecretManager.stronghold "sh"))).secretManager =
      some (SecretManager.stronghold "sh") ∧
    (SecretManagerDto.from (SecretManager.stronghold "sh")).isMnemonic =
      false ∧
    ((((StorageManager.mk freshStore []).save_account_manager_data
          (AccountManagerBuilder.mk ⟨"cfg"⟩
            (some (SecretManager.mnemonic "words")))).2.2 =
        [Event.set Key.accountManager (Value.builder ⟨"cfg"⟩)] ∧
      (((StorageManager.mk freshStore []).save_account_manager_data
          (AccountManagerBuilder.mk ⟨"cfg"⟩
            (some (SecretManager.mnemonic "words")))).2.1).storage
          Key.secretManager = none ∧
      (StorageManager.get_account_manager_data
          ((StorageManager.mk freshStore []).save_account_manager_data
            (AccountManagerBuilder.mk ⟨"cfg"⟩
              (some (SecretManager.mnemonic "words")))).2.1).1 =
        Except.ok (some ⟨⟨"cfg"⟩, none⟩)) ∧
    ((((StorageManager.mk freshStore []).save_account_manager_data
          (AccountManagerBuilder.mk ⟨"cfg"⟩
            (some (SecretManager.stronghold "sh")))).2.1).storage
          Key.secretManager =
        some (Value.dto
          (SecretManagerDto.from (SecretManager.stronghold "sh"))) ∧
      (StorageManager.get_account_manager_data
          ((StorageManager.mk freshStore []).save_account_manager_data
            (AccountManagerBuilder.mk ⟨"cfg"⟩
              (some (SecretManager.stronghold "sh")))).2.1).1 =
        Except.ok (some ⟨⟨"cfg"⟩,
          some (SecretManager.ofDto
            (SecretManagerDto.from (SecretManager.stronghold "sh")))⟩))) :=
  ⟨by decide, by decide, by decide, by decide, by decide,
    C6_mnemonic_never_persisted (StorageManager.mk freshStore [])
      (StorageManager.mk freshStore [])
      (AccountManagerBuilder.mk ⟨"cfg"⟩
        (some (SecretManager.mnemonic "words")))
      (AccountManagerBuilder.mk ⟨"cfg"⟩
        (some (SecretManager.stronghold "sh")))
      (SecretManager.mnemonic "words") (SecretManager.stronghold "sh")
      (by decide) (by decide) (by decide) (by decide) (by decide)⟩

/-- **C10**. `save_account_manager_data` never deletes or overwrites an
existing persisted secret-manager snapshot: when the builder's secret
manager is absent or snapshots to the mnemonic variant, the value stored
under the secret-manager key is left exactly as it was; consequently a
non-mnemonic snapshot persisted earlier is still reconstructed by a
`get_account_manager_data` performed after such a save. -/
theorem C10_save_preserves_snapshot (sm₁ sm₂ : StorageManager)
    (b₁ b₂ : AccountManagerBuilder) (d : SecretManagerDto)
    (h1 : savesSnapshot b₁ = false)
    (h2 : savesSnapshot b₂ = false)
    (h3 : sm₂.storage Key.secretManager = some (Value.dto d))
    (h4 : d.isMnemonic = false) :
    ((sm₁.save_account_manager_data b₁).2.1).storage Key.secretManager =
      sm₁.storage Key.secretManager ∧
    (StorageManager.get_account_manager_data
        (sm₂.save_account_manager_data b₂).2.1).1 =
      Except.ok (some ⟨b₂.data, some (SecretManager.ofDto d)⟩) := by
  have frame : ∀ (sm : StorageManager) (b : AccountManagerBuilder),
      savesSnapshot b = false →
      ((sm.save_account_manager_data b).2.1).storage Key.secretManager =
        sm.storage Key.secretManager := by
    intro sm b hb
    rcases hsm : b.secretManager with _ | m
    · simp [StorageManager.save_account_manager_data, hsm, storageSet]
    · have hmn : (SecretManagerDto.from m).isMnemonic = true := by
        unfold savesSnapshot at hb
        rw [hsm] at hb
        simpa using hb
      cases m with
      | mnemonic s =>
        simp [StorageManager.save_account_manager_data, hsm,
          SecretManagerDto.from, storageSet]
      | stronghold s =>
        exact absurd hmn (by simp [SecretManagerDto.from,
          SecretManagerDto.isMnemonic])
      | ledgerNano s =>
        exact absurd hmn (by simp [SecretManagerDto.from,
          SecretManagerDto.isMnemonic])
      | hexSeed s =>
        exact absurd hmn (by simp [SecretManagerDto.from,
          SecretManagerDto.isMnemonic])
  refine ⟨frame sm₁ b₁ h1, ?_⟩
  have hsnap : ((sm₂.save_account_manager_data b₂).2.1).storage
      Key.secretManager = some (Value.dto d) := by
    rw [frame sm₂ b₂ h2, h3]
  have hbld : ((sm₂.save_account_manager_data b₂).2.1).storage
      Key.accountManager = some (Value.builder b₂.data) := by
    rcases hsm : b₂.secretManager with _ | m
    · simp [StorageManager.save_account_manager_data, hsm, storageSet]
    · cases m <;>
        simp [StorageManager.save_account_manager_data, hsm,
          SecretManagerDto.from, storageSet]
  cases d with
  | mnemonic s => exact absurd h4 (by simp [SecretManagerDto.isMnemonic])
  | stronghold s =>
    simp [StorageManager.get_account_manager_data, getTyped, hbld, hsnap,
      Value.asBuilder, Value.asDto, SecretManager.tryFrom,
      SecretManager.ofDto]
  | ledgerNano s =>
    simp [StorageManager.get_account_manager_data, getTyped, hbld, hsnap,
      Value.asBuilder, Value.asDto, SecretManager.tryFrom,
      SecretManager.ofDto]
  | hexSeed s =>
    simp [StorageManager.get_account_manager_data, getTyped, hbld, hsnap,
      Value.asBuilder, Value.asDto, SecretManager.tryFrom,
      SecretManager.ofDto]

/-- Witness for C10: a mnemonic-backed save over a fresh store, and a save
with no secret manager over a store holding an earlier stronghold
snapshot. -/
theorem C10_witness :
    savesSnapshot (AccountManagerBuilder.mk ⟨"cfg"⟩
        (some (SecretManager.mnemonic "words"))) = false ∧
    savesSnapshot (AccountManagerBuilder.mk ⟨"cfg2"⟩ none) = false ∧
    (StorageManager.mk snapStore []).storage Key.secretManager =
      some (Value.dto (SecretManagerDto.stronghold "sh")) ∧
    (SecretManagerDto.stronghold "sh").isMnemonic = false ∧
    ((((StorageManager.mk freshStore []).save_account_manager_data
          (AccountManagerBuilder.mk ⟨"cfg"⟩
            (some (SecretManager.mnemonic "words")))).2.1).storage
        Key.secretManager =
      (StorageManager.mk freshStore []).storage Key.secretManager ∧
    (StorageManager.get_account_manager_data
        ((StorageManager.mk snapStore []).save_account_manager_data
          (AccountManagerBuilder.mk ⟨"cfg2"⟩ none)).2.1).1 =
      Except.ok (some ⟨⟨"cfg2"⟩,
        some (SecretManager.ofDto (SecretManagerDto.stronghold "sh"))⟩)) :=
  ⟨by decide, by decide, by decide, by decide,
    C10_save_preserves_snapshot (StorageManager.mk freshStore [])
      (StorageManager.mk snapStore [])
      (AccountManagerBuilder.mk ⟨"cfg"⟩
        (some (SecretManager.mnemonic "words")))
      (AccountManagerBuilder.mk ⟨"cfg2"⟩ none)
      (SecretManagerDto.stronghold "sh")
      (by decide) (by decide) (by decide) (by decide)⟩
